import Mathlib

/-!
Shallow embedding of `src/env_runners/replenishment_runner.py`
(class `ReplenishmentRunner`), the batch supervisor that drives `N`
environment worker processes through step/reset cycles.

Modelling conventions:
* Numeric tensor entries and rewards (Python floats) are modelled as `Int`;
  the runner only ever zero/one-fills them or adds them, so the claims are
  insensitive to the concrete numeric carrier.
* A worker's env `info` dictionary is modelled as an association list
  `List (String × Int)` of its numeric/boolean entries (`episode_limit`
  is an entry whose truthiness is "value ≠ 0", as in Python).  The
  `individual_rewards` array that the env places in `info` is modelled as
  its own field of `StepResponse`, since `sync_step` pops it out of `info`
  before any other use of the dictionary.
* numpy arrays of per-worker bookkeeping (`terminated`, `envs_step`, ...)
  are modelled as functions `Nat → _`; only indices `< env_batch_size` are
  ever read, and bulk writes (`arr[:] = v`) are guarded by `i < N` so that
  unobserved indices stay untouched.
* Worker processes and pipes are replaced by response oracles: a call to
  `step` receives one function giving the reply each worker would send to
  a `step` command and one for the reply to a `reset` command.  The list
  of commands actually sent on the pipes is returned explicitly.
* The per-index loop bodies of `sync_step`/`async_step` read and write only
  the bookkeeping slots of their own worker index, so the sequential Python
  loops are embedded pointwise (per index) rather than as a fold.
-/

namespace Sadma

/-- An env `info` mapping: string keys to numeric values (Python dict). -/
abbrev Info := List (String × Int)

/-- `d.get(k)` on an `Info` mapping (first binding wins, keys are unique
in the Python dicts that arise). -/
def infoGet (info : Info) (k : String) : Option Int :=
  (info.find? (fun p => p.1 == k)).map Prod.snd

/-- `d.get(k, dflt)` on an `Info` mapping. -/
def infoGetD (info : Info) (k : String) (dflt : Int) : Int :=
  (infoGet info k).getD dflt

/-- The keys of an `Info` mapping. -/
def infoKeys (info : Info) : List String := info.map Prod.fst

/-- `{k: a.get(k, 0) + b.get(k, 0) for k in set(a) | set(b)}` — the merge
performed in `get_terminated_env_info` (line 252-253): over the union of
the key sets, the values are ADDED, with default 0 for a missing key.
Key order: keys of `a` first, then the remaining keys of `b`, matching the
insertion order of the Python `dict.update`. -/
def mergeAdd (a b : Info) : Info :=
  (infoKeys a ++ infoKeys b).dedup.map (fun k => (k, infoGetD a k 0 + infoGetD b k 0))

/-- The truthiness of `info.get("episode_limit", False)` (lines 162, 218). -/
def episode_limit_flag (info : Info) : Bool :=
  infoGetD info "episode_limit" 0 != 0

/-- The constructor arguments / env schema the runner reads from
`self.args` (`env_batch_size` after the evaluate choice, and the shape
metadata used to synthesize placeholder slots). -/
structure Args where
  env_batch_size : Nat
  n_agents : Nat
  n_actions : Nat
  state_shape : Nat
  obs_shape : Nat

/-- A worker's reply to a `("step", actions)` command (lines 18-27). -/
structure StepResponse where
  state : List Int
  avail_actions : List (List Int)
  obs : List (List Int)
  reward : Int
  individual_rewards : List Int
  terminated : Bool
  info : Info

/-- A worker's reply to a `("reset", None)` command (lines 30-36). -/
structure ResetResponse where
  state : List Int
  avail_actions : List (List Int)
  obs : List (List Int)

/-- The `step_data` dictionary of per-worker lists assembled by
`sync_step`/`async_step` (the batch output). -/
structure StepData where
  state : List (List Int)
  avail_actions : List (List (List Int))
  obs : List (List (List Int))
  reward : List Int
  individual_rewards : List (List Int)
  terminated : List Bool

/-- The mutable per-instance bookkeeping of `ReplenishmentRunner`
(`_init_env`, lines 108-113; `live_env` exists only after
`reset_all_env` has run, hence the `Option`). -/
structure RunnerState where
  evaluate : Bool
  env_total_step : Nat
  terminated : Nat → Bool
  envs_step : Nat → Nat
  episode_returns : Nat → Int
  episode_lengths : Nat → Nat
  live_env : Option Nat

/-- The bookkeeping state right after `_init_env` (lines 108-113):
`terminated` all ones, every counter zero. -/
def init_state (evaluate : Bool) : RunnerState :=
  { evaluate := evaluate
    env_total_step := 0
    terminated := fun _ => true
    envs_step := fun _ => 0
    episode_returns := fun _ => 0
    episode_lengths := fun _ => 0
    live_env := none }

/-- A command sent on a worker's pipe by the stepping algorithms:
`("step", actions[idx])` or `("reset", None)`.  Actions are opaque to the
runner and modelled as `Int`. -/
inductive Command where
  | step (action : Int)
  | reset
deriving DecidableEq, Repr

/-- `reset_all_env` (lines 115-118): zero every per-worker step counter,
mark every worker terminated, and set `live_env` to the batch size. -/
def reset_all_env (args : Args) (st : RunnerState) : RunnerState :=
  { st with
    envs_step := fun i => if i < args.env_batch_size then 0 else st.envs_step i
    terminated := fun i => if i < args.env_batch_size then true else st.terminated i
    live_env := some args.env_batch_size }

/-- `alive_env` (lines 239-240): `int(np.sum(self.terminated == False))`. -/
def alive_env (args : Args) (st : RunnerState) : Nat :=
  ((List.range args.env_batch_size).filter (fun i => st.terminated i == false)).length

/-- `get_terminated_env_info` (lines 246-260): build the terminal-episode
record from the worker's counters, zero the counters, merge the env info
in additively (`mergeAdd`), and in evaluate mode prefix every key with
`test_`.  Returns the record together with the updated bookkeeping. -/
def get_terminated_env_info (self : RunnerState) (env_idx : Nat) (env_info : Info) :
    Info × RunnerState :=
  let tei : Info := [("episode_length", (self.episode_lengths env_idx : Int)),
                     ("episode_return", self.episode_returns env_idx)]
  let self' := { self with
    episode_lengths := Function.update self.episode_lengths env_idx 0
    episode_returns := Function.update self.episode_returns env_idx 0 }
  let merged := mergeAdd tei env_info
  (if self.evaluate then merged.map (fun p => ("test_" ++ p.1, p.2)) else merged, self')

/-- `np.all(self.terminated)` over the batch (line 130). -/
def allTerminated (args : Args) (st : RunnerState) : Bool :=
  (List.range args.env_batch_size).all (fun i => st.terminated i)

/-- Result of the per-worker receive-loop body for a live (non-terminated)
worker, shared verbatim by `sync_step` (lines 152-168) and `async_step`
(lines 209-224). -/
structure RecvOut where
  self : RunnerState
  record : Option Info
  env_terminated : Bool

/-- The receive-loop body for a live worker `idx` with reply `resp`:
accumulate episode length/return, emit a terminal record via
`get_terminated_env_info` when `resp.terminated`, and set the worker's
`terminated` flag iff `resp.terminated` holds without the
`episode_limit` flag (lines 152-164 = lines 209-220). -/
def recv_live (self : RunnerState) (idx : Nat) (resp : StepResponse) : RecvOut :=
  let self1 := { self with
    episode_lengths := Function.update self.episode_lengths idx (self.episode_lengths idx + 1)
    episode_returns := Function.update self.episode_returns idx (self.episode_returns idx + resp.reward) }
  let rrec : Option Info × RunnerState :=
    if resp.terminated then
      let pr := get_terminated_env_info self1 idx resp.info
      (some pr.1, pr.2)
    else
      (none, self1)
  let env_terminated := resp.terminated && !(episode_limit_flag resp.info)
  { self := { rrec.2 with terminated := Function.update rrec.2.terminated idx env_terminated }
    record := rrec.1
    env_terminated := env_terminated }

/-- The terminal record that `recv_live self idx resp` emits when
`resp.terminated` holds: `get_terminated_env_info` applied after the
length/return accumulation of lines 155-156. -/
def step_record (self : RunnerState) (idx : Nat) (resp : StepResponse) : Info :=
  (get_terminated_env_info
    { self with
      episode_lengths := Function.update self.episode_lengths idx (self.episode_lengths idx + 1)
      episode_returns := Function.update self.episode_returns idx (self.episode_returns idx + resp.reward) }
    idx resp.info).1

/-- The placeholder ("fake data", lines 170-176) synthesized for an
already-terminated worker in synchronous mode, as one `StepData` slot. -/
def placeholder_state (args : Args) : List Int := List.replicate args.state_shape 0

def placeholder_avail (args : Args) : List (List Int) :=
  List.replicate args.n_agents (List.replicate args.n_actions 1)

def placeholder_obs (args : Args) : List (List Int) :=
  List.replicate args.n_agents (List.replicate args.obs_shape 0)

def placeholder_individual (args : Args) : List Int := List.replicate args.n_agents 0

/-- The outcome of one `step` call: the new bookkeeping state, the batch
output, the emitted terminal-episode records (in worker-index order), and
the commands sent on the pipes (in send order, tagged with the worker
index). -/
structure StepOutcome where
  st : RunnerState
  data : StepData
  records : List Info
  sent : List (Nat × Command)

/-- `sync_step` (lines 120-182).  Branch 1 (all terminated, lines
130-143): reset every worker, zero `envs_step`, clear every `terminated`
flag, emit zero reward / false termination for every slot.  Branch 2
(lines 144-177): send `step` only to live workers (counting them into
`envs_step` and `env_total_step`), process their replies with
`recv_live`, and fill each terminated worker's slot with the placeholder
while zeroing its `envs_step`. -/
def sync_step (args : Args) (st : RunnerState) (actions : Nat → Int)
    (resetResp : Nat → ResetResponse) (stepResp : Nat → StepResponse) : StepOutcome :=
  let N := args.env_batch_size
  if allTerminated args st then
    { st := { st with
        envs_step := fun i => if i < N then 0 else st.envs_step i
        terminated := fun i => if i < N then false else st.terminated i }
      data :=
        { state := (List.range N).map (fun i => (resetResp i).state)
          avail_actions := (List.range N).map (fun i => (resetResp i).avail_actions)
          obs := (List.range N).map (fun i => (resetResp i).obs)
          reward := List.replicate N 0
          individual_rewards := List.replicate N (placeholder_individual args)
          terminated := List.replicate N false }
      records := []
      sent := (List.range N).map (fun i => (i, Command.reset)) }
  else
    let live : Nat → Bool := fun i => !(st.terminated i)
    let out : Nat → RecvOut := fun i => recv_live st i (stepResp i)
    { st := { st with
        env_total_step :=
          st.env_total_step + ((List.range N).filter (fun i => live i)).length
        envs_step := fun i =>
          if i < N then (if live i then st.envs_step i + 1 else 0) else st.envs_step i
        terminated := fun i =>
          if i < N ∧ live i then (out i).env_terminated else st.terminated i
        episode_lengths := fun i =>
          if i < N ∧ live i then (out i).self.episode_lengths i else st.episode_lengths i
        episode_returns := fun i =>
          if i < N ∧ live i then (out i).self.episode_returns i else st.episode_returns i }
      data :=
        { state := (List.range N).map (fun i =>
            if live i then (stepResp i).state else placeholder_state args)
          avail_actions := (List.range N).map (fun i =>
            if live i then (stepResp i).avail_actions else placeholder_avail args)
          obs := (List.range N).map (fun i =>
            if live i then (stepResp i).obs else placeholder_obs args)
          reward := (List.range N).map (fun i =>
            if live i then (stepResp i).reward else 0)
          individual_rewards := (List.range N).map (fun i =>
            if live i then (stepResp i).individual_rewards else placeholder_individual args)
          terminated := (List.range N).map (fun i =>
            if live i then (out i).env_terminated else false) }
      records := (List.range N).filterMap (fun i =>
        if live i then (out i).record else none)
      sent := (List.range N).filterMap (fun i =>
        if live i then some (i, Command.step (actions i)) else none) }

/-- `async_step` (lines 184-237).  Every worker gets exactly one command:
`step` if live (its reply is processed by `recv_live`), `reset` if
terminated (its `envs_step` is zeroed, its slot carries the reset reply
with zero reward / false termination, and its `terminated` flag is
cleared).  `env_total_step` advances once per worker, resets included. -/
def async_step (args : Args) (st : RunnerState) (actions : Nat → Int)
    (resetResp : Nat → ResetResponse) (stepResp : Nat → StepResponse) : StepOutcome :=
  let N := args.env_batch_size
  let live : Nat → Bool := fun i => !(st.terminated i)
  let out : Nat → RecvOut := fun i => recv_live st i (stepResp i)
  { st := { st with
      env_total_step := st.env_total_step + N
      envs_step := fun i =>
        if i < N then (if live i then st.envs_step i + 1 else 0) else st.envs_step i
      terminated := fun i =>
        if i < N then (if live i then (out i).env_terminated else false) else st.terminated i
      episode_lengths := fun i =>
        if i < N ∧ live i then (out i).self.episode_lengths i else st.episode_lengths i
      episode_returns := fun i =>
        if i < N ∧ live i then (out i).self.episode_returns i else st.episode_returns i }
    data :=
      { state := (List.range N).map (fun i =>
          if live i then (stepResp i).state else (resetResp i).state)
        avail_actions := (List.range N).map (fun i =>
          if live i then (stepResp i).avail_actions else (resetResp i).avail_actions)
        obs := (List.range N).map (fun i =>
          if live i then (stepResp i).obs else (resetResp i).obs)
        reward := (List.range N).map (fun i =>
          if live i then (stepResp i).reward else 0)
        individual_rewards := (List.range N).map (fun i =>
          if live i then (stepResp i).individual_rewards else placeholder_individual args)
        terminated := (List.range N).map (fun i =>
          if live i then (out i).env_terminated else false) }
    records := (List.range N).filterMap (fun i =>
      if live i then (out i).record else none)
    sent := (List.range N).map (fun i =>
      (i, if live i then Command.step (actions i) else Command.reset)) }

/-! ### Concrete sample inputs used by witnesses and counterexamples -/

/-- Sample schema: batch of 2 workers, 1 agent, 2 actions. -/
def wargs : Args :=
  { env_batch_size := 2, n_agents := 1, n_actions := 2, state_shape := 3, obs_shape := 2 }

/-- Sample bookkeeping state: worker 0 live, worker 1 terminated,
5 steps / return 7 accumulated on each worker. -/
def wst : RunnerState :=
  { evaluate := false
    env_total_step := 10
    terminated := fun i => i == 1
    envs_step := fun _ => 4
    episode_returns := fun _ => 7
    episode_lengths := fun _ => 5
    live_env := none }

/-- Sample reset reply. -/
def wreset : ResetResponse :=
  { state := [9, 9, 9], avail_actions := [[1, 1]], obs := [[5, 5]] }

/-- Sample step reply: terminal with the `episode_limit` flag set. -/
def wrespT : StepResponse :=
  { state := [1, 2, 3], avail_actions := [[1, 0]], obs := [[4, 4]], reward := 3,
    individual_rewards := [3], terminated := true, info := [("episode_limit", 1)] }

/-- Sample step reply: non-terminal. -/
def wrespF : StepResponse :=
  { state := [1, 2, 3], avail_actions := [[1, 0]], obs := [[4, 4]], reward := 2,
    individual_rewards := [2], terminated := false, info := [] }

/-! ### Helper lemmas -/

theorem filterMap_ite {α : Type} (l : List Nat) (p : Nat → Bool) (g : Nat → α) :
    (l.filterMap (fun i => if p i then some (g i) else none)) = (l.filter p).map g := by
  induction l with
  | nil => rfl
  | cons a l ih =>
      by_cases h : p a <;> simp [List.filterMap_cons, List.filter_cons, h, ih]

theorem range_map_getElem {α : Type} (f : Nat → α) {N i : Nat} (h : i < N) :
    ((List.range N).map f)[i]? = some (f i) := by
  simp [List.getElem?_map, List.getElem?_range h]

theorem range_filter_beq {N i : Nat} (h : i < N) :
    (List.range N).filter (fun j => j == i) = [i] := by
  induction N with
  | zero => omega
  | succ n ih =>
      rw [List.range_succ, List.filter_append]
      by_cases hi : i < n
      · have hne : (n == i) = false := by simp; omega
        simp [ih hi, hne]
      · have hin : i = n := by omega
        subst hin
        have h1 : (List.range i).filter (fun j => j == i) = [] := by
          rw [List.filter_eq_nil_iff]
          intro a ha
          simp only [List.mem_range] at ha
          simp
          omega
        simp [h1]

theorem recv_live_env_terminated (st : RunnerState) (i : Nat) (resp : StepResponse) :
    (recv_live st i resp).env_terminated
      = (resp.terminated && !(episode_limit_flag resp.info)) := rfl

theorem recv_live_record (st : RunnerState) (i : Nat) (resp : StepResponse) :
    (recv_live st i resp).record
      = if resp.terminated then some (step_record st i resp) else none := by
  cases h : resp.terminated <;> simp [recv_live, step_record, h]

theorem recv_live_terminated_self (st : RunnerState) (i : Nat) (resp : StepResponse) :
    (recv_live st i resp).self.terminated i
      = (resp.terminated && !(episode_limit_flag resp.info)) := by
  cases h : resp.terminated <;>
    simp [recv_live, get_terminated_env_info, h, Function.update_same]

theorem recv_live_lengths (st : RunnerState) (i : Nat) (resp : StepResponse) :
    (recv_live st i resp).self.episode_lengths i
      = if resp.terminated then 0 else st.episode_lengths i + 1 := by
  cases h : resp.terminated <;>
    simp [recv_live, get_terminated_env_info, h, Function.update_same]

theorem recv_live_returns (st : RunnerState) (i : Nat) (resp : StepResponse) :
    (recv_live st i resp).self.episode_returns i
      = if resp.terminated then 0 else st.episode_returns i + resp.reward := by
  cases h : resp.terminated <;>
    simp [recv_live, get_terminated_env_info, h, Function.update_same]

theorem infoGet_keyed_map (ks : List String) (v : String → Int) (k : String) :
    infoGet (ks.map (fun k0 => (k0, v k0))) k = if k ∈ ks then some (v k) else none := by
  induction ks with
  | nil => simp [infoGet]
  | cons a ks ih =>
      by_cases h : a = k
      · subst h
        simp [infoGet, List.find?_cons]
      · have hb : (a == k) = false := by simp [h]
        simp only [infoGet, List.map_cons, List.find?_cons, hb]
        simp only [infoGet] at ih
        rw [ih]
        simp [Ne.symm h]

theorem infoGet_mergeAdd (a b : Info) (k : String) :
    infoGet (mergeAdd a b) k =
      if k ∈ infoKeys a ++ infoKeys b then some (infoGetD a k 0 + infoGetD b k 0)
      else none := by
  unfold mergeAdd
  rw [infoGet_keyed_map]
  simp [List.mem_dedup]

theorem records_filterMap (st : RunnerState) (stepResp : Nat → StepResponse) (N : Nat) :
    ((List.range N).filterMap (fun j =>
        if !(st.terminated j) then (recv_live st j (stepResp j)).record else none))
      = ((List.range N).filter (fun j => !(st.terminated j) && (stepResp j).terminated)).map
          (fun j => step_record st j (stepResp j)) := by
  have hfn : (fun j => if !(st.terminated j) then (recv_live st j (stepResp j)).record else none)
      = (fun j => if (!(st.terminated j) && (stepResp j).terminated)
          then some (step_record st j (stepResp j)) else none) := by
    funext j
    cases hl : st.terminated j <;> cases ht : (stepResp j).terminated <;>
      simp [recv_live_record, hl, ht]
  rw [hfn, filterMap_ite]

/-! ### Claim theorems -/

/-- C1: in synchronous mode, a live worker whose reply carries
`terminated = true` together with the `episode_limit` flag does NOT get
its `terminated` flag set (it keeps stepping on subsequent calls), yet its
terminal-episode record is still emitted and its episode counters are
reset; the flag is set exactly on a reply with `terminated = true` and
`episode_limit` absent or false. -/
theorem C1_sync_episode_limit (args : Args) (st : RunnerState) (actions : Nat → Int)
    (resetResp : Nat → ResetResponse) (stepResp : Nat → StepResponse) (i : Nat)
    (hA : allTerminated args st = false) (hi : i < args.env_batch_size)
    (hlive : st.terminated i = false) :
    (sync_step args st actions resetResp stepResp).st.terminated i
      = ((stepResp i).terminated && !(episode_limit_flag (stepResp i).info)) ∧
    ((stepResp i).terminated = true → episode_limit_flag (stepResp i).info = true →
      (sync_step args st actions resetResp stepResp).st.terminated i = false) ∧
    ((stepResp i).terminated = true →
      step_record st i (stepResp i) ∈ (sync_step args st actions resetResp stepResp).records ∧
      (sync_step args st actions resetResp stepResp).st.episode_lengths i = 0 ∧
      (sync_step args st actions resetResp stepResp).st.episode_returns i = 0) := by
  have hterm : (sync_step args st actions resetResp stepResp).st.terminated i
      = ((stepResp i).terminated && !(episode_limit_flag (stepResp i).info)) := by
    simp [sync_step, hA, hi, hlive, recv_live_env_terminated]
  refine ⟨hterm, fun h1 h2 => by rw [hterm, h1, h2]; rfl, fun h1 => ⟨?_, ?_, ?_⟩⟩
  · simp only [sync_step, hA, Bool.false_eq_true, if_false]
    rw [records_filterMap]
    exact List.mem_map_of_mem _
      (List.mem_filter.mpr ⟨List.mem_range.mpr hi, by simp [hlive, h1]⟩)
  · simp [sync_step, hA, hi, hlive, recv_live_lengths, h1]
  · simp [sync_step, hA, hi, hlive, recv_live_returns, h1]

theorem C1_witness :
    allTerminated wargs wst = false ∧ (0 < wargs.env_batch_size) ∧
    wst.terminated 0 = false ∧
    ((sync_step wargs wst (fun _ => 0) (fun _ => wreset) (fun _ => wrespT)).st.terminated 0 = false ∧
     step_record wst 0 wrespT
       ∈ (sync_step wargs wst (fun _ => 0) (fun _ => wreset) (fun _ => wrespT)).records ∧
     (sync_step wargs wst (fun _ => 0) (fun _ => wreset) (fun _ => wrespT)).st.episode_lengths 0 = 0 ∧
     (sync_step wargs wst (fun _ => 0) (fun _ => wreset) (fun _ => wrespT)).st.episode_returns 0 = 0) := by
  have h := C1_sync_episode_limit wargs wst (fun _ => 0) (fun _ => wreset) (fun _ => wrespT) 0
    (by decide) (by decide) (by decide)
  exact ⟨by decide, by decide, by decide,
    h.2.1 (by decide) (by decide), (h.2.2 (by decide)).1,
    (h.2.2 (by decide)).2.1, (h.2.2 (by decide)).2.2⟩

/-- C2 counterexample: the asynchronous path also applies the
`episode_limit` override.  With worker 0 live and a reply carrying
`terminated = true` together with `episode_limit`, `async_step` leaves
worker 0's `terminated` flag false — refuting the claim that it
unconditionally sets the flag on any `terminated = true` reply. -/
theorem C2_counterexample :
    wrespT.terminated = true ∧
    ¬ ((async_step wargs wst (fun _ => 0) (fun _ => wreset) (fun _ => wrespT)).st.terminated 0
        = true) :=
  ⟨rfl, by decide⟩

/-- C2 (amended): in asynchronous mode, for every worker that was stepping
(not resetting), the `episode_limit` override is applied exactly as in
synchronous mode: the worker's new `terminated` flag equals
`terminated && !episode_limit` of its reply, and agrees with what the
synchronous path computes on the same state and replies. -/
theorem C2_async_episode_limit (args : Args) (st : RunnerState) (actions : Nat → Int)
    (resetResp : Nat → ResetResponse) (stepResp : Nat → StepResponse) (i : Nat)
    (hi : i < args.env_batch_size) (hlive : st.terminated i = false) :
    (async_step args st actions resetResp stepResp).st.terminated i
      = ((stepResp i).terminated && !(episode_limit_flag (stepResp i).info)) ∧
    (allTerminated args st = false →
      (async_step args st actions resetResp stepResp).st.terminated i
        = (sync_step args st actions resetResp stepResp).st.terminated i) := by
  have h1 : (async_step args st actions resetResp stepResp).st.terminated i
      = ((stepResp i).terminated && !(episode_limit_flag (stepResp i).info)) := by
    simp [async_step, hi, hlive, recv_live_env_terminated]
  refine ⟨h1, fun hA => ?_⟩
  have h2 : (sync_step args st actions resetResp stepResp).st.terminated i
      = ((stepResp i).terminated && !(episode_limit_flag (stepResp i).info)) := by
    simp [sync_step, hA, hi, hlive, recv_live_env_terminated]
  rw [h1, h2]

theorem C2_witness :
    (0 < wargs.env_batch_size) ∧ wst.terminated 0 = false ∧
    ((async_step wargs wst (fun _ => 0) (fun _ => wreset) (fun _ => wrespT)).st.terminated 0
      = (wrespT.terminated && !(episode_limit_flag wrespT.info))) :=
  ⟨by decide, by decide,
   (C2_async_episode_limit wargs wst (fun _ => 0) (fun _ => wreset) (fun _ => wrespT) 0
     (by decide) (by decide)).1⟩

/-- C3 counterexample: with worker 0's episode-length counter at 5 and env
info carrying `episode_length = 5`, the emitted record holds 10 — the
tracker's value plus the env-supplied value — not the env-supplied 5,
refuting the claim that the env-supplied value wins on a shared key. -/
theorem C3_counterexample :
    infoGetD (get_terminated_env_info wst 0 [("episode_length", 5)]).1 "episode_length" 0 = 10 ∧
    ¬ (infoGetD (get_terminated_env_info wst 0 [("episode_length", 5)]).1 "episode_length" 0
        = 5) := by
  constructor <;> decide

/-- C3 (amended): the emitted terminal record is the ADDITIVE merge of the
tracker counters {episode_length, episode_return} with the env info: on
every key of either side, the record's value is the tracker's value
(default 0) PLUS the env-supplied value (default 0); other keys are absent
(non-evaluate mode).  The tracker's counters are reset to zero. -/
theorem C3_additive_merge (st : RunnerState) (idx : Nat) (env_info : Info) (k : String)
    (heval : st.evaluate = false) :
    infoGet (get_terminated_env_info st idx env_info).1 k =
      (if k ∈ "episode_length" :: "episode_return" :: infoKeys env_info then
        some (infoGetD [("episode_length", (st.episode_lengths idx : Int)),
                        ("episode_return", st.episode_returns idx)] k 0
              + infoGetD env_info k 0)
       else none) ∧
    (get_terminated_env_info st idx env_info).2.episode_lengths idx = 0 ∧
    (get_terminated_env_info st idx env_info).2.episode_returns idx = 0 := by
  refine ⟨?_, by simp [get_terminated_env_info, Function.update_same],
    by simp [get_terminated_env_info, Function.update_same]⟩
  simp only [get_terminated_env_info, heval, Bool.false_eq_true, if_false]
  rw [infoGet_mergeAdd]
  simp [infoKeys]

theorem C3_witness :
    wst.evaluate = false ∧
    (infoGet (get_terminated_env_info wst 0 [("x", 3)]).1 "x" =
      (if "x" ∈ "episode_length" :: "episode_return" :: infoKeys [(("x" : String), (3 : Int))] then
        some (infoGetD [("episode_length", (wst.episode_lengths 0 : Int)),
                        ("episode_return", wst.episode_returns 0)] "x" 0
              + infoGetD [(("x" : String), (3 : Int))] "x" 0)
       else none) ∧
     (get_terminated_env_info wst 0 [("x", 3)]).2.episode_lengths 0 = 0 ∧
     (get_terminated_env_info wst 0 [("x", 3)]).2.episode_returns 0 = 0) :=
  ⟨rfl, C3_additive_merge wst 0 [("x", 3)] "x" rfl⟩

/-- C4: for every call to `step`, in both synchronous and asynchronous mode
and regardless of how many workers are terminated, every field of the
returned batch output (`state`, `obs`, `avail_actions`, `reward`,
`individual_rewards`, `terminated`) has exactly `env_batch_size` entries,
assembled in worker-index order. -/
theorem C4_batch_output_lengths (args : Args) (st : RunnerState) (actions : Nat → Int)
    (resetResp : Nat → ResetResponse) (stepResp : Nat → StepResponse) :
    ((sync_step args st actions resetResp stepResp).data.state.length = args.env_batch_size ∧
     (sync_step args st actions resetResp stepResp).data.avail_actions.length = args.env_batch_size ∧
     (sync_step args st actions resetResp stepResp).data.obs.length = args.env_batch_size ∧
     (sync_step args st actions resetResp stepResp).data.reward.length = args.env_batch_size ∧
     (sync_step args st actions resetResp stepResp).data.individual_rewards.length = args.env_batch_size ∧
     (sync_step args st actions resetResp stepResp).data.terminated.length = args.env_batch_size) ∧
    ((async_step args st actions resetResp stepResp).data.state.length = args.env_batch_size ∧
     (async_step args st actions resetResp stepResp).data.avail_actions.length = args.env_batch_size ∧
     (async_step args st actions resetResp stepResp).data.obs.length = args.env_batch_size ∧
     (async_step args st actions resetResp stepResp).data.reward.length = args.env_batch_size ∧
     (async_step args st actions resetResp stepResp).data.individual_rewards.length = args.env_batch_size ∧
     (async_step args st actions resetResp stepResp).data.terminated.length = args.env_batch_size) := by
  constructor
  · by_cases h : allTerminated args st <;> simp [sync_step, h]
  · simp [async_step]

/-- C5: in synchronous mode, whenever every worker is marked terminated at
the start of a `step` call (as on a freshly constructed or freshly
reset-all-ed runner), the call sends `reset` to all `N` workers, the batch
output carries `terminated = false` and `reward = 0` in every slot, and
every `terminated` flag is cleared; the sent-command list is the full-batch
reset, so no partial restart occurs in this mode. -/
theorem C5_sync_full_reset (args : Args) (st : RunnerState) (actions : Nat → Int)
    (resetResp : Nat → ResetResponse) (stepResp : Nat → StepResponse)
    (i : Nat) (ev : Bool) (st2 : RunnerState)
    (hA : allTerminated args st = true) (hi : i < args.env_batch_size) :
    (sync_step args st actions resetResp stepResp).sent
      = (List.range args.env_batch_size).map (fun j => (j, Command.reset)) ∧
    ((sync_step args st actions resetResp stepResp).data.terminated)[i]? = some false ∧
    ((sync_step args st actions resetResp stepResp).data.reward)[i]? = some 0 ∧
    (sync_step args st actions resetResp stepResp).st.terminated i = false ∧
    allTerminated args (init_state ev) = true ∧
    allTerminated args (reset_all_env args st2) = true := by
  refine ⟨by simp [sync_step, hA], ?_, ?_, ?_, ?_, ?_⟩
  · simp [sync_step, hA, List.getElem?_replicate_of_lt hi]
  · simp [sync_step, hA, List.getElem?_replicate_of_lt hi]
  · simp [sync_step, hA, hi]
  · simp [allTerminated, init_state]
  · simp only [allTerminated, reset_all_env, List.all_eq_true, List.mem_range]
    intro j hj
    simp [hj]

theorem C5_witness :
    allTerminated wargs (init_state false) = true ∧ (0 < wargs.env_batch_size) ∧
    ((sync_step wargs (init_state false) (fun _ => 0) (fun _ => wreset) (fun _ => wrespT)).sent
        = (List.range wargs.env_batch_size).map (fun j => (j, Command.reset)) ∧
     ((sync_step wargs (init_state false) (fun _ => 0) (fun _ => wreset) (fun _ => wrespT)).data.terminated)[0]? = some false ∧
     ((sync_step wargs (init_state false) (fun _ => 0) (fun _ => wreset) (fun _ => wrespT)).data.reward)[0]? = some 0 ∧
     (sync_step wargs (init_state false) (fun _ => 0) (fun _ => wreset) (fun _ => wrespT)).st.terminated 0 = false ∧
     allTerminated wargs (init_state false) = true ∧
     allTerminated wargs (reset_all_env wargs wst) = true) :=
  ⟨by decide, by decide,
   C5_sync_full_reset wargs (init_state false) (fun _ => 0) (fun _ => wreset) (fun _ => wrespT)
     0 false wst (by decide) (by decide)⟩

/-- C6: in synchronous mode, on a call where not all workers are
terminated, an already-terminated worker `i` is sent no command at all and
its batch slot is the schema-shaped placeholder — `state` and `obs`
zero-filled, `avail_actions` one-filled, `reward = 0`,
`terminated = false` — while its `terminated` flag stays true (so this
repeats until every worker is terminated). -/
theorem C6_sync_placeholder (args : Args) (st : RunnerState) (actions : Nat → Int)
    (resetResp : Nat → ResetResponse) (stepResp : Nat → StepResponse) (i : Nat)
    (hA : allTerminated args st = false) (hi : i < args.env_batch_size)
    (hterm : st.terminated i = true) :
    (∀ p ∈ (sync_step args st actions resetResp stepResp).sent, p.1 ≠ i) ∧
    ((sync_step args st actions resetResp stepResp).data.state)[i]?
      = some (placeholder_state args) ∧
    ((sync_step args st actions resetResp stepResp).data.avail_actions)[i]?
      = some (placeholder_avail args) ∧
    ((sync_step args st actions resetResp stepResp).data.obs)[i]?
      = some (placeholder_obs args) ∧
    ((sync_step args st actions resetResp stepResp).data.reward)[i]? = some 0 ∧
    ((sync_step args st actions resetResp stepResp).data.terminated)[i]? = some false ∧
    (sync_step args st actions resetResp stepResp).st.terminated i = true := by
  refine ⟨?_, ?_, ?_, ?_, ?_, ?_, ?_⟩
  · intro p hp
    simp only [sync_step, hA, Bool.false_eq_true, if_false] at hp
    rw [List.mem_filterMap] at hp
    obtain ⟨a, _, hfa⟩ := hp
    by_cases hla : st.terminated a
    · simp [hla] at hfa
    · simp only [hla, Bool.not_false, if_true, Option.some.injEq] at hfa
      intro hpi
      rw [← hfa] at hpi
      have ha : a = i := hpi
      rw [ha] at hla
      exact hla hterm
  · simp [sync_step, hA, List.getElem?_map, List.getElem?_range hi, hterm]
  · simp [sync_step, hA, List.getElem?_map, List.getElem?_range hi, hterm]
  · simp [sync_step, hA, List.getElem?_map, List.getElem?_range hi, hterm]
  · simp [sync_step, hA, List.getElem?_map, List.getElem?_range hi, hterm]
  · simp [sync_step, hA, List.getElem?_map, List.getElem?_range hi, hterm]
  · simp [sync_step, hA, hterm]

theorem C6_witness :
    allTerminated wargs wst = false ∧ (1 < wargs.env_batch_size) ∧
    wst.terminated 1 = true ∧
    ((∀ p ∈ (sync_step wargs wst (fun _ => 0) (fun _ => wreset) (fun _ => wrespF)).sent,
        p.1 ≠ 1) ∧
     ((sync_step wargs wst (fun _ => 0) (fun _ => wreset) (fun _ => wrespF)).data.state)[1]?
       = some (placeholder_state wargs) ∧
     ((sync_step wargs wst (fun _ => 0) (fun _ => wreset) (fun _ => wrespF)).data.avail_actions)[1]?
       = some (placeholder_avail wargs) ∧
     ((sync_step wargs wst (fun _ => 0) (fun _ => wreset) (fun _ => wrespF)).data.obs)[1]?
       = some (placeholder_obs wargs) ∧
     ((sync_step wargs wst (fun _ => 0) (fun _ => wreset) (fun _ => wrespF)).data.reward)[1]?
       = some 0 ∧
     ((sync_step wargs wst (fun _ => 0) (fun _ => wreset) (fun _ => wrespF)).data.terminated)[1]?
       = some false ∧
     (sync_step wargs wst (fun _ => 0) (fun _ => wreset) (fun _ => wrespF)).st.terminated 1
       = true) :=
  ⟨by decide, by decide, by decide,
   C6_sync_placeholder wargs wst (fun _ => 0) (fun _ => wreset) (fun _ => wrespF) 1
     (by decide) (by decide) (by decide)⟩

/-- C7: in asynchronous mode every worker receives exactly one command per
call — `step actions[i]` when its `terminated` flag is false, `reset` when
it is true — and a resetting worker comes back with its flag cleared and
zero reward / false termination in its batch slot. -/
theorem C7_async_commands (args : Args) (st : RunnerState) (actions : Nat → Int)
    (resetResp : Nat → ResetResponse) (stepResp : Nat → StepResponse) (i : Nat)
    (hi : i < args.env_batch_size) :
    ((async_step args st actions resetResp stepResp).sent.filter (fun p => p.1 == i))
      = [(i, if st.terminated i then Command.reset else Command.step (actions i))] ∧
    (st.terminated i = true →
      (async_step args st actions resetResp stepResp).st.terminated i = false ∧
      ((async_step args st actions resetResp stepResp).data.reward)[i]? = some 0 ∧
      ((async_step args st actions resetResp stepResp).data.terminated)[i]? = some false) := by
  constructor
  · simp only [async_step]
    rw [List.filter_map]
    have hcomp : ((fun p => p.1 == i) ∘
        (fun j => (j, if !(st.terminated j) then Command.step (actions j) else Command.reset)))
        = fun j => j == i := rfl
    rw [hcomp, range_filter_beq hi]
    cases h : st.terminated i <;> simp [h]
  · intro h
    refine ⟨by simp [async_step, hi, h], ?_, ?_⟩
    · simp [async_step, List.getElem?_map, List.getElem?_range hi, h]
    · simp [async_step, List.getElem?_map, List.getElem?_range hi, h]

theorem C7_witness :
    (1 < wargs.env_batch_size) ∧ wst.terminated 1 = true ∧
    (((async_step wargs wst (fun _ => 0) (fun _ => wreset) (fun _ => wrespF)).sent.filter
        (fun p => p.1 == 1))
      = [(1, if wst.terminated 1 then Command.reset else Command.step 0)] ∧
     ((async_step wargs wst (fun _ => 0) (fun _ => wreset) (fun _ => wrespF)).st.terminated 1
        = false ∧
      ((async_step wargs wst (fun _ => 0) (fun _ => wreset) (fun _ => wrespF)).data.reward)[1]?
        = some 0 ∧
      ((async_step wargs wst (fun _ => 0) (fun _ => wreset) (fun _ => wrespF)).data.terminated)[1]?
        = some false)) := by
  have h := C7_async_commands wargs wst (fun _ => 0) (fun _ => wreset) (fun _ => wrespF) 1
    (by decide)
  exact ⟨by decide, by decide, h.1, h.2 (by decide)⟩

/-- C8: worker `i`'s episode counters are zeroed exactly when a terminal
record is emitted for `i` (the number of records emitted by a call equals
the number of live workers whose reply carried `terminated = true`), and
between terminations they change only by the per-step accumulation
(length + 1, return + reward) on a stepped reply, in both modes; a
full-batch reset call and `reset_all_env` leave them unchanged. -/
theorem C8_episode_counters (args : Args) (st : RunnerState) (actions : Nat → Int)
    (resetResp : Nat → ResetResponse) (stepResp : Nat → StepResponse) (i : Nat)
    (hi : i < args.env_batch_size) :
    (allTerminated args st = true →
      (sync_step args st actions resetResp stepResp).st.episode_lengths i
        = st.episode_lengths i ∧
      (sync_step args st actions resetResp stepResp).st.episode_returns i
        = st.episode_returns i ∧
      (sync_step args st actions resetResp stepResp).records = []) ∧
    (allTerminated args st = false → st.terminated i = false →
      ((stepResp i).terminated = true →
        (sync_step args st actions resetResp stepResp).st.episode_lengths i = 0 ∧
        (sync_step args st actions resetResp stepResp).st.episode_returns i = 0 ∧
        step_record st i (stepResp i)
          ∈ (sync_step args st actions resetResp stepResp).records) ∧
      ((stepResp i).terminated = false →
        (sync_step args st actions resetResp stepResp).st.episode_lengths i
          = st.episode_lengths i + 1 ∧
        (sync_step args st actions resetResp stepResp).st.episode_returns i
          = st.episode_returns i + (stepResp i).reward)) ∧
    (allTerminated args st = false → st.terminated i = true →
      (sync_step args st actions resetResp stepResp).st.episode_lengths i
        = st.episode_lengths i ∧
      (sync_step args st actions resetResp stepResp).st.episode_returns i
        = st.episode_returns i) ∧
    (allTerminated args st = false →
      (sync_step args st actions resetResp stepResp).records.length
        = ((List.range args.env_batch_size).filter
            (fun j => !(st.terminated j) && (stepResp j).terminated)).length) ∧
    (st.terminated i = false →
      ((stepResp i).terminated = true →
        (async_step args st actions resetResp stepResp).st.episode_lengths i = 0 ∧
        (async_step args st actions resetResp stepResp).st.episode_returns i = 0 ∧
        step_record st i (stepResp i)
          ∈ (async_step args st actions resetResp stepResp).records) ∧
      ((stepResp i).terminated = false →
        (async_step args st actions resetResp stepResp).st.episode_lengths i
          = st.episode_lengths i + 1 ∧
        (async_step args st actions resetResp stepResp).st.episode_returns i
          = st.episode_returns i + (stepResp i).reward)) ∧
    (st.terminated i = true →
      (async_step args st actions resetResp stepResp).st.episode_lengths i
        = st.episode_lengths i ∧
      (async_step args st actions resetResp stepResp).st.episode_returns i
        = st.episode_returns i) ∧
    ((async_step args st actions resetResp stepResp).records.length
        = ((List.range args.env_batch_size).filter
            (fun j => !(st.terminated j) && (stepResp j).terminated)).length) ∧
    ((reset_all_env args st).episode_lengths i = st.episode_lengths i ∧
     (reset_all_env args st).episode_returns i = st.episode_returns i) := by
  refine ⟨fun hA => ⟨by simp [sync_step, hA], by simp [sync_step, hA], by simp [sync_step, hA]⟩,
    fun hA hlive => ⟨fun ht => ⟨?_, ?_, ?_⟩, fun ht => ⟨?_, ?_⟩⟩,
    fun hA hterm => ⟨by simp [sync_step, hA, hterm], by simp [sync_step, hA, hterm]⟩,
    fun hA => ?_,
    fun hlive => ⟨fun ht => ⟨?_, ?_, ?_⟩, fun ht => ⟨?_, ?_⟩⟩,
    fun hterm => ⟨by simp [async_step, hterm], by simp [async_step, hterm]⟩,
    ?_, rfl, rfl⟩
  · simp [sync_step, hA, hi, hlive, recv_live_lengths, ht]
  · simp [sync_step, hA, hi, hlive, recv_live_returns, ht]
  · simp only [sync_step, hA, Bool.false_eq_true, if_false]
    rw [records_filterMap]
    exact List.mem_map_of_mem _
      (List.mem_filter.mpr ⟨List.mem_range.mpr hi, by simp [hlive, ht]⟩)
  · simp [sync_step, hA, hi, hlive, recv_live_lengths, ht]
  · simp [sync_step, hA, hi, hlive, recv_live_returns, ht]
  · simp only [sync_step, hA, Bool.false_eq_true, if_false]
    rw [records_filterMap, List.length_map]
  · simp [async_step, hi, hlive, recv_live_lengths, ht]
  · simp [async_step, hi, hlive, recv_live_returns, ht]
  · simp only [async_step]
    rw [records_filterMap]
    exact List.mem_map_of_mem _
      (List.mem_filter.mpr ⟨List.mem_range.mpr hi, by simp [hlive, ht]⟩)
  · simp [async_step, hi, hlive, recv_live_lengths, ht]
  · simp [async_step, hi, hlive, recv_live_returns, ht]
  · simp only [async_step]
    rw [records_filterMap, List.length_map]

theorem C8_witness :
    (0 < wargs.env_batch_size) ∧ allTerminated wargs wst = false ∧
    wst.terminated 0 = false ∧ wrespT.terminated = true ∧
    (((sync_step wargs wst (fun _ => 0) (fun _ => wreset) (fun _ => wrespT)).st.episode_lengths 0
        = 0 ∧
      (sync_step wargs wst (fun _ => 0) (fun _ => wreset) (fun _ => wrespT)).st.episode_returns 0
        = 0 ∧
      step_record wst 0 wrespT
        ∈ (sync_step wargs wst (fun _ => 0) (fun _ => wreset) (fun _ => wrespT)).records) ∧
     ((reset_all_env wargs wst).episode_lengths 0 = wst.episode_lengths 0 ∧
      (reset_all_env wargs wst).episode_returns 0 = wst.episode_returns 0)) := by
  have h := C8_episode_counters wargs wst (fun _ => 0) (fun _ => wreset) (fun _ => wrespT) 0
    (by decide)
  exact ⟨by decide, by decide, by decide, by decide,
    (h.2.1 (by decide) (by decide)).1 (by decide), h.2.2.2.2.2.2.2⟩

/-- C9 counterexample: on a batch of size 2, after `reset_all_env` the
`live_env` counter holds the batch size 2, not zero, refuting the claim
that the live-worker counter equals zero after `reset_all_env`. -/
theorem C9_counterexample :
    (reset_all_env wargs wst).live_env = some 2 ∧
    ¬ ((reset_all_env wargs wst).live_env = some 0) := by
  refine ⟨rfl, by decide⟩

/-- C9 (amended): after `reset_all_env`, every worker's `terminated` flag
is `true` (so the next synchronous step performs a full-batch reset), every
per-worker step counter is zero, and the `live_env` counter is set to the
batch size `N`; the derived count of non-terminated workers (`alive_env`)
is zero. -/
theorem C9_reset_all (args : Args) (st : RunnerState) (i : Nat)
    (hi : i < args.env_batch_size) :
    (reset_all_env args st).terminated i = true ∧
    (reset_all_env args st).envs_step i = 0 ∧
    (reset_all_env args st).live_env = some args.env_batch_size ∧
    alive_env args (reset_all_env args st) = 0 := by
  refine ⟨by simp [reset_all_env, hi], by simp [reset_all_env, hi], rfl, ?_⟩
  have h : (List.range args.env_batch_size).filter
      (fun j => (reset_all_env args st).terminated j == false) = [] := by
    rw [List.filter_eq_nil_iff]
    intro a ha
    simp only [List.mem_range] at ha
    simp [reset_all_env, ha]
  simp only [alive_env, h, List.length_nil]

theorem C9_witness :
    (0 < wargs.env_batch_size) ∧
    ((reset_all_env wargs wst).terminated 0 = true ∧
     (reset_all_env wargs wst).envs_step 0 = 0 ∧
     (reset_all_env wargs wst).live_env = some wargs.env_batch_size ∧
     alive_env wargs (reset_all_env wargs wst) = 0) :=
  ⟨by decide, C9_reset_all wargs wst 0 (by decide)⟩

/-- C10: the total-step counter advances differently in the two modes: a
synchronous `step` call adds the number of workers live at the start of
the call (and nothing on a full-batch reset call), while an asynchronous
`step` call always adds the full batch size `N`, counting reset replies
like genuine step replies. -/
theorem C10_total_step (args : Args) (st : RunnerState) (actions : Nat → Int)
    (resetResp : Nat → ResetResponse) (stepResp : Nat → StepResponse) :
    (allTerminated args st = true →
      (sync_step args st actions resetResp stepResp).st.env_total_step
        = st.env_total_step) ∧
    (allTerminated args st = false →
      (sync_step args st actions resetResp stepResp).st.env_total_step
        = st.env_total_step + alive_env args st) ∧
    (async_step args st actions resetResp stepResp).st.env_total_step
      = st.env_total_step + args.env_batch_size := by
  refine ⟨fun h => by simp [sync_step, h], fun h => ?_, by simp [async_step]⟩
  have hp : ∀ j, (st.terminated j == false) = !(st.terminated j) := by
    intro j; cases st.terminated j <;> rfl
  simp only [sync_step, h, Bool.false_eq_true, if_false, alive_env]
  have hf : List.filter (fun j => st.terminated j == false) (List.range args.env_batch_size)
      = List.filter (fun j => !st.terminated j) (List.range args.env_batch_size) :=
    List.filter_congr (fun j _ => hp j)
  rw [hf]

theorem C10_witness :
    ((sync_step wargs wst (fun _ => 0) (fun _ => wreset) (fun _ => wrespF)).st.env_total_step
        = wst.env_total_step + alive_env wargs wst) ∧
    ((sync_step wargs (init_state false) (fun _ => 0) (fun _ => wreset) (fun _ => wrespF)).st.env_total_step
        = (init_state false).env_total_step) :=
  ⟨(C10_total_step wargs wst (fun _ => 0) (fun _ => wreset) (fun _ => wrespF)).2.1 (by decide),
   (C10_total_step wargs (init_state false) (fun _ => 0) (fun _ => wreset) (fun _ => wrespF)).1 (by decide)⟩

end Sadma
